import Mathlib

/-!
Shallow embedding of the order-service core of the `sss` repository
(`src/examples/order/rust`): the order data model and in-memory store
(`orders/entities.rs`, `orders/dto.rs`, `orders/service.rs`), the
authentication gate (`auth/mod.rs`), the scope authorizer
(`auth/scopes.rs`), and the problem-payload error model
(`common/errors.rs`).

Modelling conventions:
* `DateTime<Utc>` timestamps become `Nat` (only their total order and
  equality matter to the properties below).
* The effects of `Uuid::new_v4()` and `Utc::now()` are passed in as
  explicit arguments (`newId`, `now`).
* The `HashMap<String, Order>` store becomes an association list with
  at most one entry per key; `insert` replaces an existing binding,
  as `HashMap::insert` does.  Its iteration order (`values()`) is the
  list order, which — as for the Rust `HashMap` — is not guaranteed
  to be the insertion order.
* Locking and `async` disappear: each operation is a pure function
  from the store state it holds the lock over to the new state.
* Event publication (`EventService`) is fire-and-forget and only
  logged in the source; it never changes the store or the result, so
  it is not modelled.
-/

/-- `OrderStatus` from `orders/entities.rs`. -/
inductive OrderStatus where
  | pending
  | paid
  | shipped
  | delivered
deriving DecidableEq, Repr

namespace OrderStatus

/-- The `Display` impl for `OrderStatus` in `orders/entities.rs`. -/
def display : OrderStatus → String
  | pending => "pending"
  | paid => "paid"
  | shipped => "shipped"
  | delivered => "delivered"

end OrderStatus

/-- `Order` from `orders/entities.rs`; timestamps are modelled as `Nat`. -/
structure Order where
  id : String
  customer_id : String
  items : List String
  status : OrderStatus
  created_at : Nat
  updated_at : Nat
deriving DecidableEq, Repr

/-- `CreateOrderDto` from `orders/dto.rs` (without the validator attributes,
which are modelled separately as `validateCreateOrderDto`). -/
structure CreateOrderDto where
  customer_id : String
  items : List String
deriving DecidableEq, Repr

/-- `UpdateOrderDto` from `orders/dto.rs`. -/
structure UpdateOrderDto where
  status : Option OrderStatus
deriving DecidableEq, Repr

/-- `AppError` from `common/errors.rs`. `Validation` carries the formatted
message, `Internal` the wrapped error's text. -/
inductive AppError where
  | validation (msg : String)
  | orderNotFound
  | orderConflict (msg : String)
  | unauthorized
  | forbidden
  | forbiddenWithMessage (msg : String)
  | internal (msg : String)
deriving DecidableEq, Repr

/-- `Problem` from `common/errors.rs`; the `instance` field is renamed
`inst` because `instance` is a Lean keyword. -/
structure Problem where
  problem_type : String
  title : String
  status : Nat
  detail : Option String
  inst : Option String
deriving DecidableEq, Repr

/-- `Problem::unauthorized` from `common/errors.rs`. -/
def Problem.unauthorizedProblem (detail : String) : Problem :=
  { problem_type := "unauthorized", title := "Unauthorized", status := 401,
    detail := some detail, inst := none }

/-- The in-memory store guarded by the `RwLock`: `HashMap<String, Order>`
as an association list with at most one binding per key. -/
abbrev Store := List (String × Order)

namespace Store

/-- `HashMap::get` (and `get_mut` for lookup purposes). -/
def lookup (s : Store) (id : String) : Option Order :=
  (List.find? (fun p => p.1 = id) s).map (·.2)

/-- `HashMap::insert`: replaces any existing binding for the key. -/
def insert (s : Store) (id : String) (o : Order) : Store :=
  (id, o) :: List.filter (fun p => ¬ p.1 = id) s

/-- `HashMap::values`: the stored orders in the map's iteration order
(which, as for Rust's `HashMap`, need not be the insertion order). -/
def values (s : Store) : List Order :=
  s.map (·.2)

end Store

namespace OrdersService

/-- `OrdersService::create_order` from `orders/service.rs`.  The fresh
UUID and the clock reading are the explicit arguments `newId` and `now`;
the source performs no validation here and always returns `Ok`. -/
def create_order (s : Store) (dto : CreateOrderDto) (now : Nat)
    (newId : String) : Except AppError Order × Store :=
  let order : Order :=
    { id := newId
      customer_id := dto.customer_id
      items := dto.items
      status := OrderStatus.pending
      created_at := now
      updated_at := now }
  (Except.ok order, s.insert order.id order)

/-- `OrdersService::get_order` from `orders/service.rs`. -/
def get_order (s : Store) (id : String) : Except AppError Order :=
  match s.lookup id with
  | some o => Except.ok o
  | none => Except.error AppError.orderNotFound

/-- The `format!("Invalid status transition from {} to {}", ...)` message
built in `OrdersService::update_order`. -/
def conflictMsg (from_ to_ : OrderStatus) : String :=
  "Invalid status transition from " ++ from_.display ++ " to " ++ to_.display

/-- The `match (&order.status, &status)` transition table in
`OrdersService::update_order`: exactly Pending→Paid, Paid→Shipped,
Shipped→Delivered are accepted. -/
def transitionAllowed : OrderStatus → OrderStatus → Bool
  | OrderStatus.pending, OrderStatus.paid => true
  | OrderStatus.paid, OrderStatus.shipped => true
  | OrderStatus.shipped, OrderStatus.delivered => true
  | _, _ => false

/-- `OrdersService::update_order` from `orders/service.rs`.  The returned
store is the state after the call: on any error the original store, since
the source returns before mutating anything. -/
def update_order (s : Store) (id : String) (dto : UpdateOrderDto)
    (now : Nat) : Except AppError Order × Store :=
  match s.lookup id with
  | none => (Except.error AppError.orderNotFound, s)
  | some order =>
    match dto.status with
    | some status =>
      if transitionAllowed order.status status then
        let updated : Order := { order with status := status, updated_at := now }
        (Except.ok updated, s.insert id updated)
      else
        (Except.error (AppError.orderConflict (conflictMsg order.status status)), s)
    | none =>
      let updated : Order := { order with updated_at := now }
      (Except.ok updated, s.insert id updated)

/-- The stable descending insertion used to model `sort_by` in
`OrdersService::list_orders`: an element is inserted after every element
with a strictly larger `created_at`, so elements with equal keys keep
their relative order (Rust's `sort_by` is a stable sort, so any stable
sort by the same comparator computes the same list). -/
def insertDesc (o : Order) : List Order → List Order
  | [] => [o]
  | x :: xs =>
    if o.created_at < x.created_at then x :: insertDesc o xs
    else o :: x :: xs

/-- Stable sort by `created_at` descending, modelling
`order_list.sort_by(|a, b| b.created_at.cmp(&a.created_at))`. -/
def sortByCreatedDesc : List Order → List Order
  | [] => []
  | x :: xs => insertDesc x (sortByCreatedDesc xs)

/-- `OrdersService::list_orders` from `orders/service.rs`, as a function
of the list the map's `values()` iteration yields.  `u32` parameters are
modelled as `Nat`. -/
def list_orders (vals : List Order) (limit offset : Option Nat) : List Order :=
  let sorted := sortByCreatedDesc vals
  ((sorted.drop (offset.getD 0)).take (limit.getD 10))

end OrdersService

/-- `Claims` from `auth/mod.rs`. -/
structure Claims where
  sub : String
  exp : Nat
  scopes : List String
deriving DecidableEq, Repr

/-- `Claims::has_scope` from `auth/mod.rs`: exact, case-sensitive string
membership in the granted scope list. -/
def Claims.has_scope (c : Claims) (required_scope : String) : Bool :=
  c.scopes.contains required_scope

/-- `RequireScopes::check` from `auth/scopes.rs`: walks the required
scopes in declaration order and fails on the first one the claims lack.
The `[&'static str; N]` array is modelled as a list. -/
def RequireScopes.check (required_scopes : List String) (claims : Claims) :
    Except AppError Unit :=
  match required_scopes with
  | [] => Except.ok ()
  | scope :: rest =>
    if claims.has_scope scope then RequireScopes.check rest claims
    else Except.error (AppError.forbiddenWithMessage
      ("Missing required scope: " ++ scope))

/-- Rust's `str::starts_with`, stated on the character sequences so that
concrete instances evaluate by `decide`. -/
def strStartsWith (s pre : String) : Bool :=
  List.isPrefixOf pre.data s.data

/-- The path allow-list test at the top of `AuthService::call` in
`auth/mod.rs`: four exact paths plus a `starts_with` prefix test for the
swagger UI. -/
def isAuthBypass (path : String) : Bool :=
  path = "/healthz" || path = "/readyz" || path = "/" ||
    path = "/openapi.json" || strStartsWith path "/swagger-ui"

/-- `auth_str.strip_prefix("Bearer ")` in `AuthService::call` (the
stripped prefix `"Bearer "` has 7 characters). -/
def bearerToken (auth_str : String) : Option String :=
  if strStartsWith auth_str "Bearer " then some (auth_str.drop 7) else none

/-- What the auth middleware does with a request: forward it to the inner
service (with the claims, if any, it injected into the request
extensions) or short-circuit with a problem response. -/
inductive AuthDecision where
  | forward (claims : Option Claims)
  | reject (problem : Problem)
deriving DecidableEq, Repr

/-- `AuthService::call` from `auth/mod.rs` as a decision function.  The
JWT decoding (`jsonwebtoken::decode` with the HS256 secret) is the
abstract parameter `validate`: `some claims` on success, `none` on any
decode or validation failure.  A header whose bytes are not valid text
(`to_str` failure) is not modelled: Lean strings are always valid, and
that branch falls through to the same rejection as a missing header. -/
def AuthService.call (validate : String → Option Claims) (path : String)
    (auth_header : Option String) : AuthDecision :=
  if isAuthBypass path then
    AuthDecision.forward none
  else
    match auth_header with
    | some auth_str =>
      match bearerToken auth_str with
      | some token =>
        match validate token with
        | some claims => AuthDecision.forward (some claims)
        | none => AuthDecision.reject (Problem.unauthorizedProblem "Invalid token")
      | none =>
        AuthDecision.reject
          (Problem.unauthorizedProblem "Missing or invalid authorization header")
    | none =>
      AuthDecision.reject
        (Problem.unauthorizedProblem "Missing or invalid authorization header")

/-- A request processed through the auth middleware: only a forwarded
request ever reaches the inner service (and hence the `OrderStore`).
The inner service is any function from the injected claims and the store
to a new store and a response status. -/
def processRequest (validate : String → Option Claims) (path : String)
    (auth_header : Option String)
    (inner : Option Claims → Store → Store × Nat) (s : Store) : Store × Nat :=
  match AuthService.call validate path auth_header with
  | AuthDecision.forward claims => inner claims s
  | AuthDecision.reject problem => (s, problem.status)

/-- `Scopes::from_request_parts` from `auth/scopes.rs`: the extractor
reads the `Claims` extension injected by the auth middleware and rejects
with a 401 problem when it is absent. -/
def Scopes.from_request_parts (ext : Option Claims) : Except Problem Claims :=
  match ext with
  | some claims => Except.ok claims
  | none => Except.error (Problem.unauthorizedProblem "Missing authentication")

/-- A handler that takes `scopes: Scopes` run against a request context:
the handler body runs only when the extractor succeeds; otherwise the
extractor's 401 rejection is the response and the store is untouched. -/
def runWithScopes (ext : Option Claims)
    (handler : Claims → Store → Store × Nat) (s : Store) : Store × Nat :=
  match Scopes.from_request_parts ext with
  | Except.ok claims => handler claims s
  | Except.error problem => (s, problem.status)

/-- The `#[validate(...)]` attributes on `CreateOrderDto` in
`orders/dto.rs`, as run by `dto.validate()` in the create handler:
`customer_id` must have length at least 1, `items` must have at least
1 element.  The formatted message of the first failing field (field
order as declared) is carried in `AppError::Validation`. -/
def validateCreateOrderDto (dto : CreateOrderDto) : Except AppError Unit :=
  if dto.customer_id.length < 1 then
    Except.error (AppError.validation "customerId should not be empty")
  else if dto.items.length < 1 then
    Except.error (AppError.validation "items must contain at least 1 elements")
  else
    Except.ok ()

/-- `OrdersHandler::create_order` from `orders/mod.rs`: checks the
`orders.write` scope, validates the body, and only then calls
`OrdersService::create_order`.  On any error the store is unchanged. -/
def OrdersHandler.create_order (claims : Claims) (dto : CreateOrderDto)
    (s : Store) (now : Nat) (newId : String) : Except AppError Order × Store :=
  match RequireScopes.check ["orders.write"] claims with
  | Except.error e => (Except.error e, s)
  | Except.ok () =>
    match validateCreateOrderDto dto with
    | Except.error e => (Except.error e, s)
    | Except.ok () => OrdersService.create_order s dto now newId

/-- Spec-side model for comparison with `isAuthBypass`: the bypass
allow-list as the spec describes it — "enumerated exactly, not
pattern-inferred" — service root, health and readiness probes, and the
API documentation endpoints (the OpenAPI document and the swagger UI
routes). -/
def specEnumeratedBypassPaths : List String :=
  ["/", "/healthz", "/readyz", "/openapi.json",
   "/swagger-ui", "/swagger-ui/", "/swagger-ui/index.html"]

/-- Spec-side model for comparison with `OrdersService.list_orders`: the
same sort-skip-take pipeline, but applied to the collection in insertion
order, so that — the sort being stable — ties in `created_at` come out
in insertion order as the spec states. -/
def listOrdersSpecModel (insertions : List Order) (limit offset : Option Nat) :
    List Order :=
  let sorted := OrdersService.sortByCreatedDesc insertions
  ((sorted.drop (offset.getD 0)).take (limit.getD 10))

/-- The data-model invariant from the spec: every stored order has
`updated_at ≥ created_at`. -/
def storeInv (s : Store) : Prop :=
  ∀ p ∈ s, (Prod.snd p).created_at ≤ (Prod.snd p).updated_at

instance (s : Store) : Decidable (storeInv s) :=
  inferInstanceAs (Decidable (∀ p ∈ s, (Prod.snd p).created_at ≤ (Prod.snd p).updated_at))

/-- Fixture: a pending order used by concrete witnesses. -/
def samplePending : Order :=
  { id := "o1", customer_id := "c1", items := ["i1"],
    status := OrderStatus.pending, created_at := 3, updated_at := 3 }

/-- Fixture: claims granting only the read scope. -/
def sampleReadClaims : Claims :=
  { sub := "user-1", exp := 100, scopes := ["orders.read"] }

/-- Fixture: claims granting read and write scopes. -/
def sampleFullClaims : Claims :=
  { sub := "user-2", exp := 100, scopes := ["orders.read", "orders.write"] }

/-- Fixture: first of two orders sharing a `created_at` timestamp. -/
def sampleTieA : Order :=
  { id := "a", customer_id := "cA", items := ["x"],
    status := OrderStatus.pending, created_at := 7, updated_at := 7 }

/-- Fixture: second of two orders sharing a `created_at` timestamp. -/
def sampleTieB : Order :=
  { id := "b", customer_id := "cB", items := ["y"],
    status := OrderStatus.pending, created_at := 7, updated_at := 7 }

/-! ### Helper lemmas about the store -/

theorem Store.lookup_insert_self (s : Store) (id : String) (o : Order) :
    (s.insert id o).lookup id = some o := by
  simp [Store.lookup, Store.insert, List.find?]

theorem Store.find?_filter_ne (s : Store) (id k : String) (h : k ≠ id) :
    List.find? (fun p => p.1 = k) (List.filter (fun p => ¬ p.1 = id) s) =
      List.find? (fun p => p.1 = k) s := by
  rw [List.find?_filter]
  congr 1
  funext a
  by_cases ha : a.1 = id
  · simp [ha, Ne.symm h]
  · simp [ha]

theorem Store.lookup_insert_ne (s : Store) (id k : String) (o : Order)
    (h : k ≠ id) : (s.insert id o).lookup k = s.lookup k := by
  have hk : (decide ((id, o).1 = k)) = false := by
    simp [Ne.symm h]
  simp only [Store.lookup, Store.insert, List.find?, hk]
  rw [Store.find?_filter_ne s id k h]

theorem Store.lookup_mem (s : Store) (id : String) (o : Order)
    (h : s.lookup id = some o) : ∃ k, (k, o) ∈ s := by
  unfold Store.lookup at h
  cases hf : List.find? (fun p => p.1 = id) s with
  | none => rw [hf] at h; exact absurd h (by simp)
  | some p =>
    rw [hf] at h
    obtain ⟨k0, o0⟩ := p
    have hp : (k0, o0) ∈ s := List.mem_of_find?_eq_some hf
    have ho : o0 = o := by simpa using h
    exact ⟨k0, ho ▸ hp⟩

theorem storeInv_insert (s : Store) (id : String) (o : Order)
    (hs : storeInv s) (ho : o.created_at ≤ o.updated_at) :
    storeInv (s.insert id o) := by
  intro p hp
  rcases List.mem_cons.mp hp with h | h
  · subst h; exact ho
  · exact hs p (List.mem_of_mem_filter h)

/-! ### Helper lemmas about the stable descending sort -/

theorem OrdersService.perm_insertDesc (o : Order) (l : List Order) :
    (OrdersService.insertDesc o l).Perm (o :: l) := by
  induction l with
  | nil => exact List.Perm.refl _
  | cons x xs ih =>
    by_cases h : o.created_at < x.created_at
    · simp only [OrdersService.insertDesc, if_pos h]
      exact (ih.cons x).trans (List.Perm.swap o x xs)
    · simp only [OrdersService.insertDesc, if_neg h]
      exact List.Perm.refl _

theorem OrdersService.perm_sortByCreatedDesc (l : List Order) :
    (OrdersService.sortByCreatedDesc l).Perm l := by
  induction l with
  | nil => exact List.Perm.refl _
  | cons x xs ih =>
    exact (OrdersService.perm_insertDesc x (OrdersService.sortByCreatedDesc xs)).trans
      (ih.cons x)

theorem OrdersService.mem_insertDesc {o z : Order} {l : List Order} :
    z ∈ OrdersService.insertDesc o l ↔ z = o ∨ z ∈ l :=
  (OrdersService.perm_insertDesc o l).mem_iff.trans (by simp)

theorem OrdersService.pairwise_insertDesc (o : Order) (l : List Order)
    (h : l.Pairwise (fun a b => b.created_at ≤ a.created_at)) :
    (OrdersService.insertDesc o l).Pairwise
      (fun a b => b.created_at ≤ a.created_at) := by
  induction l with
  | nil => simp [OrdersService.insertDesc]
  | cons x xs ih =>
    rcases List.pairwise_cons.mp h with ⟨h1, h2⟩
    by_cases hc : o.created_at < x.created_at
    · simp only [OrdersService.insertDesc, if_pos hc]
      refine List.Pairwise.cons ?_ (ih h2)
      intro z hz
      rcases OrdersService.mem_insertDesc.mp hz with rfl | hz
      · exact Nat.le_of_lt hc
      · exact h1 z hz
    · simp only [OrdersService.insertDesc, if_neg hc]
      have hxo : x.created_at ≤ o.created_at := Nat.le_of_not_lt hc
      refine List.Pairwise.cons ?_ h
      intro z hz
      rcases List.mem_cons.mp hz with rfl | hz
      · exact hxo
      · exact Nat.le_trans (h1 z hz) hxo

theorem OrdersService.pairwise_sortByCreatedDesc (l : List Order) :
    (OrdersService.sortByCreatedDesc l).Pairwise
      (fun a b => b.created_at ≤ a.created_at) := by
  induction l with
  | nil => simp [OrdersService.sortByCreatedDesc]
  | cons x xs ih =>
    exact OrdersService.pairwise_insertDesc x _ ih

theorem OrdersService.filter_insertDesc (t : Nat) (o : Order) (l : List Order) :
    (OrdersService.insertDesc o l).filter (fun x => x.created_at = t) =
      if o.created_at = t then
        o :: l.filter (fun x => x.created_at = t)
      else
        l.filter (fun x => x.created_at = t) := by
  induction l with
  | nil =>
    by_cases ht : o.created_at = t <;>
      simp [OrdersService.insertDesc, List.filter, ht]
  | cons x xs ih =>
    by_cases hc : o.created_at < x.created_at
    · have hstep : OrdersService.insertDesc o (x :: xs) =
          x :: OrdersService.insertDesc o xs := by
        simp only [OrdersService.insertDesc, if_pos hc]
      by_cases ht : o.created_at = t
      · have hxt : x.created_at ≠ t := by
          subst ht; intro e; rw [e] at hc; exact Nat.lt_irrefl _ hc
        simp [hstep, List.filter_cons, hxt, ih, ht]
      · by_cases hxt : x.created_at = t <;>
          simp [hstep, List.filter_cons, hxt, ih, ht]
    · have hstep : OrdersService.insertDesc o (x :: xs) = o :: x :: xs := by
        simp only [OrdersService.insertDesc, if_neg hc]
      by_cases ht : o.created_at = t <;>
        simp [hstep, List.filter_cons, ht]

theorem OrdersService.filter_sortByCreatedDesc (t : Nat) (l : List Order) :
    (OrdersService.sortByCreatedDesc l).filter (fun x => x.created_at = t) =
      l.filter (fun x => x.created_at = t) := by
  induction l with
  | nil => rfl
  | cons x xs ih =>
    by_cases ht : x.created_at = t <;>
      simp [OrdersService.sortByCreatedDesc, OrdersService.filter_insertDesc,
        ht, ih, List.filter]

theorem OrdersService.length_sortByCreatedDesc (l : List Order) :
    (OrdersService.sortByCreatedDesc l).length = l.length :=
  (OrdersService.perm_sortByCreatedDesc l).length_eq

/-! ### Claim theorems -/

/-- Claim C1: for every stored order and every requested new status, the
update succeeds exactly for the transitions Pending→Paid, Paid→Shipped
and Shipped→Delivered; every other `(from, to)` pair — the transition
table covers all pairs, including `from = to` — returns `OrderConflict`
whose message names the attempted from and to statuses, and returns the
store completely unchanged. -/
theorem update_order_transitions_and_conflict
    (s : Store) (id : String) (st : OrderStatus) (now : Nat) (order : Order)
    (h : s.lookup id = some order) :
    (∀ f t : OrderStatus, OrdersService.transitionAllowed f t = true ↔
      ((f = OrderStatus.pending ∧ t = OrderStatus.paid) ∨
       (f = OrderStatus.paid ∧ t = OrderStatus.shipped) ∨
       (f = OrderStatus.shipped ∧ t = OrderStatus.delivered))) ∧
    ((∃ o', (OrdersService.update_order s id ⟨some st⟩ now).1 = Except.ok o') ↔
      OrdersService.transitionAllowed order.status st = true) ∧
    (OrdersService.transitionAllowed order.status st = false →
      OrdersService.update_order s id ⟨some st⟩ now =
        (Except.error (AppError.orderConflict
          (OrdersService.conflictMsg order.status st)), s)) := by
  refine ⟨?_, ?_, ?_⟩
  · intro f t
    cases f <;> cases t <;> simp [OrdersService.transitionAllowed]
  · unfold OrdersService.update_order
    rw [h]
    cases hA : OrdersService.transitionAllowed order.status st <;> simp [hA]
  · intro hA
    unfold OrdersService.update_order
    rw [h]
    simp [hA]

/-- Witness for C1 at a concrete input: an order in status `pending`
and a requested jump straight to `shipped` is refused with the conflict
message and an unchanged store. -/
theorem update_order_transitions_and_conflict_witness :
    OrdersService.update_order [("o1", samplePending)] "o1"
        ⟨some OrderStatus.shipped⟩ 5 =
      (Except.error (AppError.orderConflict
        (OrdersService.conflictMsg OrderStatus.pending OrderStatus.shipped)),
        [("o1", samplePending)]) ∧
    OrdersService.conflictMsg OrderStatus.pending OrderStatus.shipped =
      "Invalid status transition from pending to shipped" := by
  refine ⟨?_, by decide⟩
  exact (update_order_transitions_and_conflict [("o1", samplePending)] "o1"
    OrderStatus.shipped 5 samplePending rfl).2.2 rfl

/-- Counterexample for C2 as stated: the auth bypass test is a prefix
match for the swagger UI, not an exact enumeration — the path
`/swagger-uibogus` is no documentation endpoint (it is not even below
the `/swagger-ui/` route) yet it bypasses authentication. -/
theorem isAuthBypass_not_exact_enumeration_counterexample :
    isAuthBypass "/swagger-uibogus" = true ∧
    "/swagger-uibogus" ∉ specEnumeratedBypassPaths := by
  refine ⟨by decide, by decide⟩

/-- Claim C2 (amended): the bypass set is exactly the four exact paths
`/healthz`, `/readyz`, `/`, `/openapi.json` plus every path with prefix
`/swagger-ui`; for every other path, a request whose Authorization
header is missing, not of the `Bearer <token>` form, or carrying a token
that fails validation is rejected with a 401 `unauthorized` problem and
is never forwarded to the inner service, so the store is unchanged for
every possible inner handler. -/
theorem authGate_allowlist_and_fail_closed
    (validate : String → Option Claims) (path : String) (hdr : Option String)
    (inner : Option Claims → Store → Store × Nat) (s : Store) :
    (isAuthBypass path = true ↔
      (path = "/healthz" ∨ path = "/readyz" ∨ path = "/" ∨
        path = "/openapi.json" ∨ strStartsWith path "/swagger-ui" = true)) ∧
    (isAuthBypass path = false →
      (hdr = none ∨ (∃ h, hdr = some h ∧ bearerToken h = none) ∨
        (∃ h t, hdr = some h ∧ bearerToken h = some t ∧ validate t = none)) →
      ∃ prob, AuthService.call validate path hdr = AuthDecision.reject prob ∧
        prob.status = 401 ∧ prob.problem_type = "unauthorized" ∧
        processRequest validate path hdr inner s = (s, 401)) := by
  constructor
  · simp [isAuthBypass, Bool.or_eq_true, decide_eq_true_eq, or_assoc]
  · intro hbp hbad
    rcases hbad with rfl | ⟨ah, rfl, hb⟩ | ⟨ah, tk, rfl, hb, hv⟩
    · have h1 : AuthService.call validate path none = AuthDecision.reject
          (Problem.unauthorizedProblem "Missing or invalid authorization header") := by
        simp [AuthService.call, hbp]
      have h2 : processRequest validate path none inner s = (s, 401) := by
        simp [processRequest, AuthService.call, hbp, Problem.unauthorizedProblem]
      exact ⟨_, h1, rfl, rfl, h2⟩
    · have h1 : AuthService.call validate path (some ah) = AuthDecision.reject
          (Problem.unauthorizedProblem "Missing or invalid authorization header") := by
        simp [AuthService.call, hbp, hb]
      have h2 : processRequest validate path (some ah) inner s = (s, 401) := by
        simp [processRequest, AuthService.call, hbp, hb, Problem.unauthorizedProblem]
      exact ⟨_, h1, rfl, rfl, h2⟩
    · have h1 : AuthService.call validate path (some ah) = AuthDecision.reject
          (Problem.unauthorizedProblem "Invalid token") := by
        simp [AuthService.call, hbp, hb, hv]
      have h2 : processRequest validate path (some ah) inner s = (s, 401) := by
        simp [processRequest, AuthService.call, hbp, hb, hv, Problem.unauthorizedProblem]
      exact ⟨_, h1, rfl, rfl, h2⟩

/-- Witness for C2 (amended) at a concrete input: on the non-bypass path
`/orders`, a bearer token that fails validation yields a 401 and leaves
an empty store empty, whatever the inner handler would have done. -/
theorem authGate_allowlist_and_fail_closed_witness :
    isAuthBypass "/orders" = false ∧
    processRequest (fun _ => none) "/orders" (some "Bearer t1")
      (fun _ s => (s, 200)) [] = ([], 401) := by
  refine ⟨by decide, ?_⟩
  obtain ⟨prob, _, _, _, hp⟩ :=
    (authGate_allowlist_and_fail_closed (fun _ => none) "/orders"
      (some "Bearer t1") (fun _ s => (s, 200)) []).2 (by decide)
      (Or.inr (Or.inr ⟨"Bearer t1", "t1", rfl, by decide, rfl⟩))
  exact hp

/-- Claim C3: the scope check succeeds exactly when the claims contain
every required scope (exact string membership in the granted scope
list), and otherwise fails with a Forbidden error naming the first
missing scope in declaration order (`List.find?` returns the first
element, in declaration order, that the claims lack). -/
theorem require_scopes_conjunctive_first_missing
    (required : List String) (claims : Claims) :
    (RequireScopes.check required claims = Except.ok () ↔
      ∀ scope ∈ required, scope ∈ claims.scopes) ∧
    (∀ scope, List.find? (fun x => ! claims.has_scope x) required = some scope →
      RequireScopes.check required claims =
        Except.error (AppError.forbiddenWithMessage
          ("Missing required scope: " ++ scope))) := by
  constructor
  · induction required with
    | nil => simp [RequireScopes.check]
    | cons a rest ih =>
      by_cases ha : claims.has_scope a
      · have hmem : a ∈ claims.scopes := by
          simpa [Claims.has_scope] using ha
        simp [RequireScopes.check, ha, ih, hmem]
      · have hmem : a ∉ claims.scopes := by
          simpa [Claims.has_scope] using ha
        simp [RequireScopes.check, ha, hmem]
  · induction required with
    | nil => intro scope h; simp at h
    | cons a rest ih =>
      intro scope h
      by_cases ha : claims.has_scope a
      · have hfind : List.find? (fun x => ! claims.has_scope x) rest = some scope := by
          simpa [List.find?, ha] using h
        simpa [RequireScopes.check, ha] using ih scope hfind
      · have ha' : (! claims.has_scope a) = true := by simp [ha]
        have : scope = a := by
          have := List.find?_cons_of_pos (p := fun x => ! claims.has_scope x) rest ha'
          rw [this] at h
          exact (Option.some.injEq _ _).mp h.symm
        subst this
        simp [RequireScopes.check, ha]

/-- Witness for C3 at a concrete input: claims granting only
`orders.read`, checked against `[orders.read, orders.write]`, fail
naming `orders.write`, the first missing scope. -/
theorem require_scopes_conjunctive_first_missing_witness :
    RequireScopes.check ["orders.read", "orders.write"] sampleReadClaims =
      Except.error (AppError.forbiddenWithMessage
        "Missing required scope: orders.write") := by
  have h := (require_scopes_conjunctive_first_missing
    ["orders.read", "orders.write"] sampleReadClaims).2 "orders.write" (by decide)
  simpa using h

/-- Claim C4: for every valid input (non-empty `customer_id`, non-empty
`items`) and a fresh generated id, create succeeds with an order in
status Pending whose `created_at` equals its `updated_at`, whose id is
the fresh id absent from the store, and the order is inserted. -/
theorem create_order_valid_pending_fresh
    (s : Store) (dto : CreateOrderDto) (now : Nat) (newId : String)
    (hc : dto.customer_id ≠ "") (hi : dto.items ≠ [])
    (hfresh : s.lookup newId = none) :
    ∃ order : Order,
      OrdersService.create_order s dto now newId =
        (Except.ok order, s.insert newId order) ∧
      order.status = OrderStatus.pending ∧
      order.created_at = now ∧
      order.updated_at = now ∧
      order.id = newId ∧
      order.customer_id = dto.customer_id ∧
      order.items = dto.items ∧
      s.lookup order.id = none ∧
      (s.insert newId order).lookup newId = some order := by
  exact ⟨_, rfl, rfl, rfl, rfl, rfl, rfl, rfl, hfresh,
    Store.lookup_insert_self s newId _⟩

/-- Witness for C4 at a concrete input: a valid dto created in an empty
store with fresh id `id-7`. -/
theorem create_order_valid_pending_fresh_witness :
    ∃ order : Order,
      OrdersService.create_order [] ⟨"c1", ["i1"]⟩ 4 "id-7" =
        (Except.ok order, Store.insert [] "id-7" order) ∧
      order.status = OrderStatus.pending ∧
      order.created_at = 4 ∧
      order.updated_at = 4 ∧
      order.id = "id-7" ∧
      order.customer_id = "c1" ∧
      order.items = ["i1"] ∧
      Store.lookup [] order.id = none ∧
      (Store.insert [] "id-7" order).lookup "id-7" = some order :=
  create_order_valid_pending_fresh [] ⟨"c1", ["i1"]⟩ 4 "id-7"
    (by decide) (by decide) rfl

/-- Counterexample for C5 as stated: `OrdersService::create_order`
performs no validation at all — an input with empty `customer_id` and
empty `items` is accepted (`Ok`) and the invalid aggregate is inserted
into the store. -/
theorem create_order_accepts_invalid_counterexample :
    (OrdersService.create_order [] ⟨"", []⟩ 0 "id-1").1 =
      Except.ok ⟨"id-1", "", [], OrderStatus.pending, 0, 0⟩ ∧
    Store.lookup (OrdersService.create_order [] ⟨"", []⟩ 0 "id-1").2 "id-1" =
      some ⟨"id-1", "", [], OrderStatus.pending, 0, 0⟩ := by
  exact ⟨rfl, by decide⟩

/-- Claim C5 (amended): the store's create performs no validation and
always inserts; the rejection of an empty `customer_id` or empty `items`
happens in the request-validation layer — the create handler runs
`dto.validate()` before calling the store, so an invalid aggregate is
rejected with an error and the store is left unchanged. -/
theorem create_handler_rejects_invalid_aggregate
    (claims : Claims) (dto : CreateOrderDto) (s : Store) (now : Nat)
    (newId : String) (hbad : dto.customer_id = "" ∨ dto.items = []) :
    ∃ e, OrdersHandler.create_order claims dto s now newId =
      (Except.error e, s) := by
  cases hchk : RequireScopes.check ["orders.write"] claims with
  | error e =>
    refine ⟨e, ?_⟩
    unfold OrdersHandler.create_order
    rw [hchk]
  | ok u =>
    cases u
    rcases hbad with hb | hb
    · refine ⟨AppError.validation "customerId should not be empty", ?_⟩
      unfold OrdersHandler.create_order
      rw [hchk]
      simp [validateCreateOrderDto, hb]
    · by_cases hcid : dto.customer_id.length < 1
      · refine ⟨AppError.validation "customerId should not be empty", ?_⟩
        unfold OrdersHandler.create_order
        rw [hchk]
        simp [validateCreateOrderDto, hcid]
      · refine ⟨AppError.validation "items must contain at least 1 elements", ?_⟩
        unfold OrdersHandler.create_order
        rw [hchk]
        simp [validateCreateOrderDto, hcid, hb]

/-- Witness for C5 (amended) at a concrete input: a dto with empty
`customer_id`, submitted by a caller holding the write scope, is
rejected by the handler and the store stays empty. -/
theorem create_handler_rejects_invalid_aggregate_witness :
    ∃ e, OrdersHandler.create_order sampleFullClaims ⟨"", ["i1"]⟩ [] 0 "id-9" =
      (Except.error e, []) :=
  create_handler_rejects_invalid_aggregate sampleFullClaims ⟨"", ["i1"]⟩
    [] 0 "id-9" (Or.inl rfl)

/-- Counterexample for C6 as stated: the orders are collected from
`HashMap::values()`, whose iteration order is unspecified and need not
be the insertion order.  With two orders created at the same timestamp
and inserted in the order `[sampleTieA, sampleTieB]`, the iteration
order `[sampleTieB, sampleTieA]` is a legal map state (a permutation of
the insertions), and on it `list_orders` breaks the tie in iteration
order, not insertion order — differing from the spec-side pipeline that
receives the insertion sequence. -/
theorem list_orders_insertion_tiebreak_counterexample :
    List.Perm [sampleTieB, sampleTieA] [sampleTieA, sampleTieB] ∧
    sampleTieA.created_at = sampleTieB.created_at ∧
    OrdersService.list_orders [sampleTieB, sampleTieA] none none =
      [sampleTieB, sampleTieA] ∧
    listOrdersSpecModel [sampleTieA, sampleTieB] none none =
      [sampleTieA, sampleTieB] ∧
    OrdersService.list_orders [sampleTieB, sampleTieA] none none ≠
      listOrdersSpecModel [sampleTieA, sampleTieB] none none :=
  ⟨List.Perm.swap _ _ _, rfl, by decide, by decide, by decide⟩

/-- Claim C6 (amended): `list_orders` sorts the current orders by
`created_at` descending with a stable sort — ties keep the relative
order of the map's (unspecified) iteration sequence, not necessarily
insertion order — then skips `offset` (default 0) entries and takes at
most `limit` (default 10); an offset at or beyond the collection size or
a limit of 0 yields the empty sequence rather than an error. -/
theorem list_orders_sorted_paginated
    (vals : List Order) (limit offset : Option Nat) :
    (OrdersService.list_orders vals none none =
      OrdersService.list_orders vals (some 10) (some 0)) ∧
    (OrdersService.sortByCreatedDesc vals).Perm vals ∧
    (OrdersService.sortByCreatedDesc vals).Pairwise
      (fun a b => b.created_at ≤ a.created_at) ∧
    (∀ t, (OrdersService.sortByCreatedDesc vals).filter
        (fun o => o.created_at = t) =
      vals.filter (fun o => o.created_at = t)) ∧
    OrdersService.list_orders vals limit offset =
      ((OrdersService.sortByCreatedDesc vals).drop (offset.getD 0)).take
        (limit.getD 10) ∧
    (OrdersService.list_orders vals limit offset).length ≤ limit.getD 10 ∧
    (vals.length ≤ offset.getD 0 →
      OrdersService.list_orders vals limit offset = []) ∧
    (limit = some 0 → OrdersService.list_orders vals limit offset = []) := by
  refine ⟨rfl, OrdersService.perm_sortByCreatedDesc vals,
    OrdersService.pairwise_sortByCreatedDesc vals,
    fun t => OrdersService.filter_sortByCreatedDesc t vals,
    rfl, ?_, ?_, ?_⟩
  · simp only [OrdersService.list_orders]
    rw [List.length_take]
    exact Nat.min_le_left _ _
  · intro h
    have hlen : (OrdersService.sortByCreatedDesc vals).length ≤ offset.getD 0 := by
      rw [OrdersService.length_sortByCreatedDesc]
      exact h
    simp only [OrdersService.list_orders]
    rw [List.drop_eq_nil_of_le hlen, List.take_nil]
  · intro h
    subst h
    simp [OrdersService.list_orders]

/-- Witness for C6 (amended) at a concrete input, the spec's own
scenario: `list(limit=1, offset=5)` on a store holding 3 orders returns
the empty sequence, not an error. -/
theorem list_orders_sorted_paginated_witness :
    OrdersService.list_orders [samplePending, sampleTieA, sampleTieB]
      (some 1) (some 5) = [] :=
  (list_orders_sorted_paginated [samplePending, sampleTieA, sampleTieB]
    (some 1) (some 5)).2.2.2.2.2.2.1 (by decide)

/-- Claim C7: every successful update changes only `status` and
`updated_at` — `id`, `customer_id`, `items` and `created_at` are those
of the stored order, other store entries are untouched — and an update
carrying no status succeeds, leaves the status unchanged, and still
refreshes `updated_at`. -/
theorem update_order_frame_and_none_refreshes
    (s : Store) (id : String) (dto : UpdateOrderDto) (now : Nat) (order : Order)
    (h : s.lookup id = some order) :
    (∀ o' s', OrdersService.update_order s id dto now = (Except.ok o', s') →
      o'.id = order.id ∧ o'.customer_id = order.customer_id ∧
      o'.items = order.items ∧ o'.created_at = order.created_at ∧
      o'.updated_at = now ∧ s' = s.insert id o' ∧
      s'.lookup id = some o' ∧
      ∀ k, k ≠ id → s'.lookup k = s.lookup k) ∧
    (dto.status = none →
      OrdersService.update_order s id dto now =
        (Except.ok { order with updated_at := now },
          s.insert id { order with updated_at := now })) := by
  constructor
  · intro o' s' ho
    cases hst : dto.status with
    | none =>
      have hupd : OrdersService.update_order s id dto now =
          (Except.ok { order with updated_at := now },
            s.insert id { order with updated_at := now }) := by
        unfold OrdersService.update_order
        rw [h, hst]
      rw [hupd] at ho
      simp only [Prod.mk.injEq, Except.ok.injEq] at ho
      obtain ⟨ho1, ho2⟩ := ho
      subst ho1
      subst ho2
      exact ⟨rfl, rfl, rfl, rfl, rfl, rfl,
        Store.lookup_insert_self s id _,
        fun k hk => Store.lookup_insert_ne s id k _ hk⟩
    | some st =>
      by_cases hA : OrdersService.transitionAllowed order.status st
      · have hupd : OrdersService.update_order s id dto now =
            (Except.ok { order with status := st, updated_at := now },
              s.insert id { order with status := st, updated_at := now }) := by
          unfold OrdersService.update_order
          rw [h, hst]
          simp [hA]
        rw [hupd] at ho
        simp only [Prod.mk.injEq, Except.ok.injEq] at ho
        obtain ⟨ho1, ho2⟩ := ho
        subst ho1
        subst ho2
        exact ⟨rfl, rfl, rfl, rfl, rfl, rfl,
          Store.lookup_insert_self s id _,
          fun k hk => Store.lookup_insert_ne s id k _ hk⟩
      · have hupd : OrdersService.update_order s id dto now =
            (Except.error (AppError.orderConflict
              (OrdersService.conflictMsg order.status st)), s) := by
          unfold OrdersService.update_order
          rw [h, hst]
          simp [hA]
        rw [hupd] at ho
        simp at ho
  · intro hst
    unfold OrdersService.update_order
    rw [h, hst]

/-- Witness for C7 at a concrete input: an update with no status on a
pending order succeeds, keeps every other field, and refreshes
`updated_at` to the clock reading 9. -/
theorem update_order_frame_and_none_refreshes_witness :
    OrdersService.update_order [("o1", samplePending)] "o1" ⟨none⟩ 9 =
      (Except.ok { samplePending with updated_at := 9 },
        Store.insert [("o1", samplePending)] "o1"
          { samplePending with updated_at := 9 }) :=
  (update_order_frame_and_none_refreshes [("o1", samplePending)] "o1"
    ⟨none⟩ 9 samplePending rfl).2 rfl

/-- Claim C8: `updated_at ≥ created_at` holds for every stored order and
is preserved by create (which establishes equality of the two
timestamps) and by update, under the assumption that the clock is
non-decreasing (the new reading is at least every stored creation
time). -/
theorem store_timestamps_invariant
    (s : Store) (dto : CreateOrderDto) (udto : UpdateOrderDto)
    (id newId : String) (now : Nat) (hs : storeInv s) :
    storeInv (OrdersService.create_order s dto now newId).2 ∧
    (∀ o, (OrdersService.create_order s dto now newId).1 = Except.ok o →
      o.created_at = o.updated_at) ∧
    ((∀ p ∈ s, (Prod.snd p).created_at ≤ now) →
      storeInv (OrdersService.update_order s id udto now).2) := by
  refine ⟨?_, ?_, ?_⟩
  · exact storeInv_insert s newId _ hs (Nat.le_refl now)
  · intro o ho
    simp only [OrdersService.create_order, Except.ok.injEq] at ho
    rw [← ho]
  · intro hclock
    cases hl : s.lookup id with
    | none =>
      have hupd : (OrdersService.update_order s id udto now).2 = s := by
        unfold OrdersService.update_order
        rw [hl]
      rw [hupd]
      exact hs
    | some order =>
      obtain ⟨k, hk⟩ := Store.lookup_mem s id order hl
      have hord : order.created_at ≤ now := hclock (k, order) hk
      cases hst : udto.status with
      | none =>
        have hupd : (OrdersService.update_order s id udto now).2 =
            s.insert id { order with updated_at := now } := by
          unfold OrdersService.update_order
          rw [hl, hst]
        rw [hupd]
        exact storeInv_insert s id _ hs hord
      | some st =>
        by_cases hA : OrdersService.transitionAllowed order.status st
        · have hupd : (OrdersService.update_order s id udto now).2 =
              s.insert id { order with status := st, updated_at := now } := by
            unfold OrdersService.update_order
            rw [hl, hst]
            simp [hA]
          rw [hupd]
          exact storeInv_insert s id _ hs hord
        · have hupd : (OrdersService.update_order s id udto now).2 = s := by
            unfold OrdersService.update_order
            rw [hl, hst]
            simp [hA]
          rw [hupd]
          exact hs

/-- Witness for C8 at a concrete input: a store holding one order
created at time 3, a create at time 5 and an update at time 5. -/
theorem store_timestamps_invariant_witness :
    storeInv (OrdersService.create_order [("o1", samplePending)]
      ⟨"c2", ["i2"]⟩ 5 "id-8").2 ∧
    storeInv (OrdersService.update_order [("o1", samplePending)] "o1"
      ⟨some OrderStatus.paid⟩ 5).2 := by
  have h := store_timestamps_invariant [("o1", samplePending)]
    ⟨"c2", ["i2"]⟩ ⟨some OrderStatus.paid⟩ "o1" "id-8" 5 (by decide)
  exact ⟨h.1, h.2.2 (by decide)⟩

/-- Claim C9: `get` with the id of the order returned by `create`
returns that very order — in particular its `id`, `customer_id` and
`items` are identical to those of the created order. -/
theorem get_after_create_returns_created
    (s : Store) (dto : CreateOrderDto) (now : Nat) (newId : String) :
    ∃ order : Order,
      (OrdersService.create_order s dto now newId).1 = Except.ok order ∧
      OrdersService.get_order (OrdersService.create_order s dto now newId).2
        order.id = Except.ok order ∧
      order.id = newId ∧
      order.customer_id = dto.customer_id ∧
      order.items = dto.items := by
  refine ⟨{ id := newId, customer_id := dto.customer_id, items := dto.items,
            status := OrderStatus.pending, created_at := now,
            updated_at := now },
    rfl, ?_, rfl, rfl, rfl⟩
  unfold OrdersService.get_order
  rw [show (OrdersService.create_order s dto now newId).2 =
      Store.insert s newId ⟨newId, dto.customer_id, dto.items,
        OrderStatus.pending, now, now⟩ from rfl]
  rw [Store.lookup_insert_self]

/-- Claim C10: a request context carrying no validated claims is
rejected by the `Scopes` extractor with the 401 "Missing authentication"
problem, and a handler guarded by the extractor never runs: whatever the
handler is, the response is the 401 and the store is returned
untouched. -/
theorem scopes_extractor_missing_claims_401
    (handler : Claims → Store → Store × Nat) (s : Store) :
    Scopes.from_request_parts none =
      Except.error (Problem.unauthorizedProblem "Missing authentication") ∧
    (Problem.unauthorizedProblem "Missing authentication").status = 401 ∧
    runWithScopes none handler s = (s, 401) :=
  ⟨rfl, rfl, rfl⟩
